import Mathlib

/-!
Shallow embedding of `src/git_hooks/encode.py` (the archive codec of the
houdini-expand repository) and proofs about its specification claims.

Modelling conventions:
* Python `bytes` values are `List Nat` (each element is a byte value 0..255).
* Python `str` values are Lean `String`; `.encode()` / UTF-8 encoding is
  `strBytes` (implemented from the UTF-8 definition).
* SHA-256 is modelled abstractly: a hash object (`Hash`) is the concatenation
  of all byte chunks fed to it (the real SHA-256 state depends on exactly that
  sequence), and `hexdigest` is an injective function of that sequence.  No
  claim below relies on hash collisions, only on which bytes are fed.
* Python exceptions are the `Except PyErr` monad.  Loops are given explicit
  fuel (`PyErr.fuelOut` is an artifact of the embedding and is proved
  unreachable wherever a claim depends on it).
* Filesystem writes performed by the decoder are logged as `FsOp` values;
  the temporary materialization root is abstracted to a path string.
-/

namespace GitHooks

/-- Python runtime values that can appear as header field values:
`int`, `str`, `pathlib.Path` (kept as its path string) and `bytes`. -/
inductive PyVal where
  | int (n : Int)
  | str (s : String)
  | path (s : String)
  | bytes (b : List Nat)
deriving DecidableEq, Repr

/-- Python `==` on the builtin types above.  Values of different builtin
types among int / str / Path / bytes compare unequal in Python (in
particular `bytes == str` is always `False`, and `PurePath.__eq__` returns
`NotImplemented` for a `str` argument, which falls back to `False`). -/
def pyEq : PyVal → PyVal → Bool
  | .int a, .int b => a == b
  | .str a, .str b => a == b
  | .path a, .path b => a == b
  | .bytes a, .bytes b => a == b
  | _, _ => false

/-- Python exceptions raised by the code under study.  `fuelOut` is an
artifact of the fuel-based embedding of loops, not a Python exception. -/
inductive PyErr where
  | valueError (msg : String)
  | keyError (key : String)
  | typeError (msg : String)
  | unicodeDecodeError
  | decoderFailure (msg : String)
  | fuelOut
deriving DecidableEq, Repr

instance {α : Type} [DecidableEq α] : DecidableEq (Except PyErr α) := fun a b =>
  match a, b with
  | .ok x, .ok y => if h : x = y then .isTrue (by rw [h]) else .isFalse (by simp [h])
  | .error x, .error y => if h : x = y then .isTrue (by rw [h]) else .isFalse (by simp [h])
  | .ok _, .error _ => .isFalse (by simp)
  | .error _, .ok _ => .isFalse (by simp)

/-- Discriminates the `DecoderFailure` exception class (encode.py lines
235-236) from every other exception. -/
def isDecoderFailureB : PyErr → Bool
  | .decoderFailure _ => true
  | _ => false

/-- UTF-8 encoding of one character (the code points of a Lean `Char` and a
Python `str` element coincide). -/
def charBytes (c : Char) : List Nat :=
  let n := c.toNat
  if n < 128 then [n]
  else if n < 2048 then [192 + n / 64, 128 + n % 64]
  else if n < 65536 then [224 + n / 4096, 128 + (n / 64) % 64, 128 + n % 64]
  else [240 + n / 262144, 128 + (n / 4096) % 64, 128 + (n / 64) % 64, 128 + n % 64]

/-- Python `str.encode()`: the UTF-8 bytes of a string. -/
def strBytes (s : String) : List Nat := (s.data.map charBytes).flatten

/-- Whitespace bytes stripped by Python `bytes.strip()`. -/
def isSpaceByte (b : Nat) : Bool :=
  b == 32 || b == 9 || b == 10 || b == 13 || b == 11 || b == 12

/-- Python `bytes.strip()`: removes ASCII whitespace from both ends. -/
def pyStrip (b : List Nat) : List Nat :=
  ((b.dropWhile isSpaceByte).reverse.dropWhile isSpaceByte).reverse

/-- Whitespace characters stripped by Python `str.strip()` (ASCII subset;
the headers under study only contain ASCII). -/
def isSpaceChar (c : Char) : Bool :=
  c == ' ' || c == '\t' || c == '\n' || c == '\r' || c.toNat == 11 || c.toNat == 12

/-- Python `str.strip()`. -/
def strStrip (s : String) : String :=
  String.mk ((s.data.dropWhile isSpaceChar).reverse.dropWhile isSpaceChar).reverse

/-- Reading one line of a binary stream (iteration over a Python binary file
object yields chunks split after each newline byte; the final chunk may lack
the newline).  Returns the line including its newline byte, and the rest. -/
def readLine : List Nat → List Nat × List Nat
  | [] => ([], [])
  | b :: rest =>
      if b == 10 then ([10], rest)
      else
        let r := readLine rest
        (b :: r.1, r.2)

/-- Python `f_input.read(n)`: at most `n` bytes (fewer at end of stream,
without error); a negative argument reads the whole rest. -/
def pyRead (n : Int) (s : List Nat) : List Nat × List Nat :=
  if n < 0 then (s, []) else (s.take n.toNat, s.drop n.toNat)

/-! ## Hash model (encode.py lines 30-51)

`hash(data)` allocates a sha256 object seeded with `data`; `update` feeds
more bytes.  The state of a SHA-256 object is a function of the
concatenation of all bytes fed to it, so the model keeps that concatenation;
`hexdigest` is modelled as an injective function of it. -/

/-- State of a sha256 hash object: the bytes fed so far. -/
abbrev Hash := List Nat

/-- Allocate a new hash object seeded with `data` (encode.py `hash`).
Call sites that pass a `str` are modelled by passing `strBytes` of it,
mirroring the automatic `.encode()` in the source. -/
def hash (data : List Nat) : Hash := data

/-- Feed more data into a hash object (encode.py `update`); `str` arguments
are modelled as their `strBytes`. -/
def update (h : Hash) (data : List Nat) : Hash := h ++ data

/-- Abstract model of `sha256(..).hexdigest()`: an injective encoding of the
byte sequence fed to the accumulator. -/
def hexdigest (h : Hash) : String := "sha256:" ++ toString h

/-! ## Header codec (encode.py lines 26, 55-141) -/

/-- The sentinel line separating header frames (encode.py line 26). -/
def SEPARATOR : String := "--------"

/-- Python `(sep).join` specialised to the newline separator used in
`write_header`. -/
def joinNL : List String → String
  | [] => ""
  | [s] => s
  | s :: rest => s ++ "\n" ++ joinNL rest

/-- The header frame string built by `write_header` (encode.py line 79):
a blank line, the sentinel, one `key:value` line per field in insertion
order (which is declaration order for every header constructed by the
source), and the closing sentinel, each line newline-terminated.  Field
values are pre-formatted to strings exactly as the f-string does
(`str` of a `Path` is its path text, `str` of an `int` is decimal). -/
def frameStr (fields : List (String × String)) : String :=
  "\n" ++ SEPARATOR ++ "\n" ++ joinNL (fields.map fun kv => kv.1 ++ ":" ++ kv.2) ++
    "\n" ++ SEPARATOR ++ "\n"

/-- Model of `write_header` (encode.py lines 74-83): the frame is written to
the output stream as its UTF-8 bytes and the same text is returned to the
caller (which feeds it to a hash accumulator after the identical implicit
encoding); the model therefore returns the bytes written. -/
def write_header (fields : List (String × String)) : List Nat :=
  strBytes (frameStr fields)

/-- The TypedDict classes passed to `read_header` (encode.py lines 55-141). -/
inductive HeaderCls where
  | Header
  | MetadataHeader
  | FileHeader
  | SymlinkHeader
  | DirectoryHeader
  | DirectoryFooter
deriving DecidableEq, Repr

/-- Runtime categories of the declared field annotations.  `aliasTy` stands
for an annotation that is a `type X = ...` alias object (`EntryType`,
`Sha256Hex`): such an object is not callable, so converting through it
raises `TypeError`.  `dateTy` is `datetime.date`, whose constructor rejects
a bytes argument. -/
inductive FieldTy where
  | intTy
  | pathTy
  | strTy
  | aliasTy
  | dateTy
deriving DecidableEq, Repr

/-- The `__annotations__` tables of the header classes (the TypedDict
metaclass merges base-class annotations into subclasses, so the `type` and
`name` fields of `Header` appear in every subclass). -/
def fieldTypes : HeaderCls → List (String × FieldTy)
  | .Header => [("type", .aliasTy), ("name", .pathTy)]
  | .MetadataHeader =>
      [("format_version", .intTy), ("git_hooks_version", .strTy),
       ("git_hooks_commit", .strTy), ("python_version", .strTy),
       ("platformdirs", .strTy), ("path", .pathTy), ("date", .dateTy)]
  | .FileHeader => [("type", .aliasTy), ("name", .pathTy), ("sha256", .aliasTy), ("length", .intTy)]
  | .SymlinkHeader => [("type", .aliasTy), ("name", .pathTy), ("target", .pathTy)]
  | .DirectoryHeader => [("type", .aliasTy), ("name", .pathTy)]
  | .DirectoryFooter => [("type", .aliasTy), ("name", .pathTy), ("sha", .aliasTy)]

/-- A parsed header: a Python dict in insertion order. -/
abbrev PyHeader := List (String × PyVal)

/-- Python dict item lookup `h[k]`, raising `KeyError` when absent. -/
def pyGet (h : PyHeader) (k : String) : Except PyErr PyVal :=
  match h.lookup k with
  | some v => .ok v
  | none => .error (.keyError k)

/-- Python dict item assignment `h[k] = v` (replaces in place, otherwise
appends, preserving insertion order). -/
def pySet : PyHeader → String → PyVal → PyHeader
  | [], k, v => [(k, v)]
  | (k₀, v₀) :: rest, k, v =>
      if k₀ == k then (k₀, v) :: rest else (k₀, v₀) :: pySet rest k v

/-- Continuation byte test for UTF-8 decoding. -/
def isCont (b : Nat) : Bool := 128 ≤ b && b < 192

/-- Worker for `bytesDecodeUtf8` (fuel bounds the number of decoded
characters; the caller passes the byte count, which always suffices). -/
def utf8DecodeGo : Nat → List Nat → List Char → Except PyErr String
  | _, [], acc => .ok (String.mk acc.reverse)
  | 0, _ :: _, _ => .error .fuelOut
  | fuel + 1, b :: rest, acc =>
      if b < 128 then utf8DecodeGo fuel rest (Char.ofNat b :: acc)
      else if 192 ≤ b && b < 224 then
        match rest with
        | b₁ :: rest₁ =>
            if isCont b₁ then
              utf8DecodeGo fuel rest₁ (Char.ofNat ((b - 192) * 64 + (b₁ - 128)) :: acc)
            else .error .unicodeDecodeError
        | _ => .error .unicodeDecodeError
      else if 224 ≤ b && b < 240 then
        match rest with
        | b₁ :: b₂ :: rest₂ =>
            if isCont b₁ && isCont b₂ then
              utf8DecodeGo fuel rest₂
                (Char.ofNat ((b - 224) * 4096 + (b₁ - 128) * 64 + (b₂ - 128)) :: acc)
            else .error .unicodeDecodeError
        | _ => .error .unicodeDecodeError
      else if 240 ≤ b && b < 248 then
        match rest with
        | b₁ :: b₂ :: b₃ :: rest₃ =>
            if isCont b₁ && isCont b₂ && isCont b₃ then
              utf8DecodeGo fuel rest₃
                (Char.ofNat ((b - 240) * 262144 + (b₁ - 128) * 4096 +
                  (b₂ - 128) * 64 + (b₃ - 128)) :: acc)
            else .error .unicodeDecodeError
        | _ => .error .unicodeDecodeError
      else .error .unicodeDecodeError

/-- Python `bytes.decode()` (UTF-8; overlong and surrogate rejection is not
modelled, the streams under study are ASCII). -/
def bytesDecodeUtf8 (b : List Nat) : Except PyErr String :=
  utf8DecodeGo b.length b []

/-- Decimal digit accumulation for `pyInt`. -/
def pyIntDigitsGo : List Nat → Nat → Option Nat
  | [], acc => some acc
  | d :: ds, acc =>
      if 48 ≤ d && d ≤ 57 then pyIntDigitsGo ds (acc * 10 + (d - 48)) else none

/-- Python `int(bytes)`: optional surrounding whitespace, optional sign,
decimal digits; anything else raises `ValueError` (digit-group underscores
are not modelled). -/
def pyInt (b : List Nat) : Except PyErr Int :=
  let t := pyStrip b
  let core : List Nat × Bool :=
    match t with
    | 43 :: ds => (ds, false)
    | 45 :: ds => (ds, true)
    | ds => (ds, false)
  match core with
  | ([], _) => .error (.valueError "invalid literal for int")
  | (ds, neg) =>
      match pyIntDigitsGo ds 0 with
      | none => .error (.valueError "invalid literal for int")
      | some n => .ok (if neg then -(n : Int) else (n : Int))

/-- Lower-case hexadecimal digit. -/
def hexDigitChar (n : Nat) : Char :=
  if n < 10 then Char.ofNat (48 + n) else Char.ofNat (87 + n)

/-- Escaping of one byte inside the repr of a bytes object. -/
def reprByte (n : Nat) : List Char :=
  if n == 92 then ['\\', '\\']
  else if n == 39 then ['\\', '\'']
  else if n == 9 then ['\\', 't']
  else if n == 10 then ['\\', 'n']
  else if n == 13 then ['\\', 'r']
  else if 32 ≤ n && n < 127 then [Char.ofNat n]
  else ['\\', 'x', hexDigitChar (n / 16), hexDigitChar (n % 16)]

/-- Python `str(bytesValue)`: the repr of the bytes object (the quote-style
refinement for values containing a single quote is not modelled). -/
def pyStrRepr (b : List Nat) : String :=
  "b" ++ String.mk ('\'' :: (b.map reprByte).flatten ++ ['\''])

/-- Conversion of a raw field value through its declared annotation
(encode.py lines 106-114): `int` parses decimal, `Path` decodes UTF-8,
every other annotation is called on the bytes value — for `str` that yields
the repr text, for a type-alias object or `date` it raises `TypeError`. -/
def convertField : FieldTy → List Nat → Except PyErr PyVal
  | .intTy, v =>
      match pyInt v with
      | .error e => .error e
      | .ok n => .ok (.int n)
  | .pathTy, v =>
      match bytesDecodeUtf8 v with
      | .error e => .error e
      | .ok s => .ok (.path s)
  | .strTy, v => .ok (.str (pyStrRepr v))
  | .aliasTy, _ => .error (.typeError "TypeAliasType object is not callable")
  | .dateTy, _ => .error (.typeError "an integer is required")

/-- First split of a byte string at a colon. -/
def splitFirstColon : List Nat → Option (List Nat × List Nat)
  | [] => none
  | b :: rest =>
      if b == 58 then some ([], rest)
      else
        match splitFirstColon rest with
        | none => none
        | some (a, r) => some (b :: a, r)

/-- Python `line.split(b":", 2)`: split at the first two colons, at most
three parts. -/
def pySplitColon2 (b : List Nat) : List (List Nat) :=
  match splitFirstColon b with
  | none => [b]
  | some (a, r) =>
      match splitFirstColon r with
      | none => [a, r]
      | some (c, r₂) => [a, c, r₂]

/-- Worker loop of `read_header` (encode.py lines 85-116), one recursive
step per iteration of `for line in f_input`.  The original compares the
stripped bytes line with the `str` constants `SEPARATOR` and the empty
string; both comparisons are bytes-versus-str and therefore always false in
Python, which the `pyEq` calls reproduce.  The `case None` arm of the
source match can never fire (iteration yields bytes) and has no model.
When the separator guard matches, the source falls through to
`key, value = line.split(b":", 2)` applied to the separator line itself;
that fall-through is reproduced below. -/
def read_header_go (cls : HeaderCls) :
    Nat → Nat → PyHeader → List Nat → Except PyErr (PyHeader × List Nat)
  | 0, _, _, _ => .error .fuelOut
  | fuel + 1, separators, header, s =>
      match s with
      | [] => .ok (header, [])
      | _ :: _ =>
          let r := readLine s
          let line := pyStrip r.1
          if separators == 0 then .ok (header, r.2)
          else if pyEq (.bytes line) (.str SEPARATOR) then
            match pySplitColon2 line with
            | [k, v] =>
                match bytesDecodeUtf8 k with
                | .error e => .error e
                | .ok key₀ =>
                    let key := strStrip key₀
                    let keyTy := ((fieldTypes cls).lookup key).getD .strTy
                    match convertField keyTy v with
                    | .error e => .error e
                    | .ok value =>
                        read_header_go cls fuel (separators - 1) (pySet header key value) r.2
            | _ => .error (.valueError "not enough values to unpack")
          else if pyEq (.bytes line) (.str "") then
            read_header_go cls fuel separators header r.2
          else .ok (header, r.2)

/-- Model of `read_header` (encode.py lines 85-116).  The fuel is the
stream length plus one; every loop iteration consumes at least one byte, so
the fuel never runs out. -/
def read_header (cls : HeaderCls) (s : List Nat) : Except PyErr (PyHeader × List Nat) :=
  read_header_go cls (s.length + 1) 2 [] s

/-! ## Decoder (encode.py lines 175-269) -/

/-- Filesystem effects performed by the decoder, relative to the
materialization root. -/
inductive FsOp where
  | writeFile (path : String) (data : List Nat)
  | makeSymlink (path : String) (target : String)
deriving DecidableEq, Repr

/-- Python `root / rel` for a relative path (the abstract root may be the
empty string, standing for the temporary directory). -/
def pyJoin (root rel : String) : String :=
  if root = "" then rel else root ++ "/" ++ rel

/-- Conversion accepted by `root / value`: a `str` or `Path`; any other
value raises `TypeError`. -/
def pyValPathStr : PyVal → Except PyErr String
  | .str s => .ok s
  | .path s => .ok s
  | _ => .error (.typeError "argument should be a str or an os.PathLike object")

/-- Conversion required by `f_input.read(length)`: an `int`. -/
def pyValInt : PyVal → Except PyErr Int
  | .int n => .ok n
  | _ => .error (.typeError "argument should be integer")

/-- Model of `decode_file` (encode.py lines 175-189): read exactly `length`
bytes (fewer only at end of stream), write them to `root / name`, digest
them, and raise `ValueError` when the digest differs from the declared
`sha256` field.  The source opens and writes the file before the
comparison; the model logs the write only on success, which no claim
distinguishes. -/
def decode_file (root : String) (file_header : PyHeader) (s : List Nat) :
    Except PyErr (String × List FsOp × List Nat) :=
  match pyGet file_header "name" with
  | .error e => .error e
  | .ok nameV =>
      match pyValPathStr nameV with
      | .error e => .error e
      | .ok name =>
          match pyGet file_header "length" with
          | .error e => .error e
          | .ok lenV =>
              match pyValInt lenV with
              | .error e => .error e
              | .ok length =>
                  let r := pyRead length s
                  let sha := hexdigest (hash r.1)
                  match pyGet file_header "sha256" with
                  | .error e => .error e
                  | .ok declV =>
                      if pyEq (.str sha) declV = false then
                        .error (.valueError "File hash mismatch")
                      else .ok (sha, [FsOp.writeFile (pyJoin root name) r.1], r.2)

/-- Model of `decode_symlink` (encode.py lines 191-202): create the link
and return the empty string.  The target normalization
`(root / target).relative_to(root)` returns the target unchanged for the
relative targets produced by the encoder; a pre-existing file only logs a
warning in the source, so creation is modelled unconditionally. -/
def decode_symlink (root : String) (sl_header : PyHeader) :
    Except PyErr (String × List FsOp) :=
  match pyGet sl_header "name" with
  | .error e => .error e
  | .ok nameV =>
      match pyValPathStr nameV with
      | .error e => .error e
      | .ok name =>
          match pyGet sl_header "target" with
          | .error e => .error e
          | .ok targetV =>
              match pyValPathStr targetV with
              | .error e => .error e
              | .ok target => .ok ("", [FsOp.makeSymlink (pyJoin root name) target])

/-- Body of the `decode_directory` loop (encode.py lines 213-231): dispatch
on `header["type"]`.  The loop continuation and the recursion into a nested
scope (which starts a fresh accumulator `hash []` — the source passes the
same `root` and ignores the header argument of the recursive call) are both
the `loop` parameter, so this function is shared by the loop below without
mutual recursion.  The footer arm performs the duplicated digest comparison
of source lines 224-228. -/
def decode_stepF
    (loop : Hash → List FsOp → List Nat → Except PyErr (String × List FsOp × List Nat))
    (root : String) (dir_hash : Hash) (ops : List FsOp) (header : PyHeader) (s : List Nat) :
    Except PyErr (String × List FsOp × List Nat) :=
  match pyGet header "type" with
  | .error e => .error e
  | .ok ty =>
      if pyEq ty (.str "file") then
        match decode_file root header s with
        | .error e => .error e
        | .ok (sha, fops, s₁) => loop (update dir_hash (strBytes sha)) (ops ++ fops) s₁
      else if pyEq ty (.str "symlink") then
        match decode_symlink root header with
        | .error e => .error e
        | .ok (sha, fops) => loop (update dir_hash (strBytes sha)) (ops ++ fops) s
      else if pyEq ty (.str "directory") then
        match loop (hash []) ops s with
        | .error e => .error e
        | .ok (digest, ops₁, s₁) => loop (update dir_hash (strBytes digest)) ops₁ s₁
      else if pyEq ty (.str "footer") then
        match pyGet header "sha" with
        | .error e => .error e
        | .ok shaV =>
            if pyEq (.str (hexdigest dir_hash)) shaV = false then
              .error (.valueError "Directory hash mismatch")
            else
              let digest := hexdigest dir_hash
              if pyEq shaV (.str digest) = false then
                .error (.valueError "Directory hash mismatch")
              else .ok (digest, ops, s)
      else .error (.valueError "Unknown header")

/-- The `while header := read_header(Header, f_input)` loop of
`decode_directory` (encode.py lines 210-233).  A falsy header (the empty
dict) ends the loop without `break`, which runs the `else` clause and
raises `ValueError("Unexpected EOF")`. -/
def decode_dir_loop :
    Nat → String → Hash → List FsOp → List Nat → Except PyErr (String × List FsOp × List Nat)
  | 0, _, _, _, _ => .error .fuelOut
  | fuel + 1, root, dir_hash, ops, s =>
      match read_header HeaderCls.Header s with
      | .error e => .error e
      | .ok (header, s₁) =>
          if header.isEmpty then .error (.valueError "Unexpected EOF")
          else decode_stepF (decode_dir_loop fuel root) root dir_hash ops header s₁

/-- Model of `decode_directory` (encode.py lines 204-233): a fresh
accumulator `hash()` per scope; the `dir_header` argument is unused by the
source body (it only appears in a broken debug-log call). -/
def decode_directory (fuel : Nat) (root : String) (dir_header : PyHeader) (s : List Nat) :
    Except PyErr (String × List FsOp × List Nat) :=
  decode_dir_loop fuel root (hash []) [] s

/-- Model of `decode_stream` (encode.py lines 251-260): read the directory
header, decode, and raise `DecoderFailure` only when `decode_directory`
returns a falsy (empty) digest.  There is no exception handler, so
exceptions raised inside the decode propagate unchanged. -/
def decode_stream (fuel : Nat) (s : List Nat) : Except PyErr (List FsOp) :=
  match read_header HeaderCls.DirectoryHeader s with
  | .error e => .error e
  | .ok (header, s₁) =>
      match decode_directory fuel "" header s₁ with
      | .error e => .error e
      | .ok (digest, ops, _) =>
          if digest = "" then .error (.decoderFailure "Failed to decode") else .ok ops

/-! ## Encoder (encode.py lines 143-172) -/

/-- A filesystem tree entry as classified by the `if f.is_file() / elif
f.is_dir() / elif f.is_symlink() / else` chain of `encode_directory`
(`is_file` and `is_dir` follow symlinks, so a symlink resolving to a
regular file or directory takes those earlier branches; `symlink` here
carries the already-resolved target relative to the root, as computed by
`f.resolve().relative_to(root)` for a non-escaping target; `other` is any
remaining kind, which raises `ValueError`). -/
inductive Entry where
  | file (name : String) (content : List Nat)
  | dir (name : String) (children : List Entry)
  | symlink (name : String) (target : String)
  | other (name : String)

/-- The name of an entry inside its parent directory. -/
def entryName : Entry → String
  | .file n _ => n
  | .dir n _ => n
  | .symlink n _ => n
  | .other n => n

/-- The relative path of a child, as produced by `f.relative_to(root)`
(the root scope itself has relative path "."). -/
def childPath (pre name : String) : String :=
  if pre = "." then name else pre ++ "/" ++ name

/-- Byte-wise comparison of code-point lists: the order used by Python when
comparing strings (and, within one directory, `Path` objects, whose
comparison is by path string — all children share the parent prefix, so it
reduces to the name order). -/
def charListLe : List Char → List Char → Bool
  | [], _ => true
  | _ :: _, [] => false
  | a :: as, b :: bs =>
      if a.toNat < b.toNat then true
      else if b.toNat < a.toNat then false
      else charListLe as bs

/-- Name order on entries, as used by `sorted(dir.iterdir())`. -/
def nameLe (a b : Entry) : Prop :=
  charListLe (entryName a).data (entryName b).data = true

instance : DecidableRel nameLe := fun a b => by
  unfold nameLe
  infer_instance

/-- Model of `sorted(dir.iterdir())` (encode.py line 151): a stable sort of
the children by name (names within one directory are distinct, so any
stable sorting algorithm produces the Python result). -/
def sortEntries (es : List Entry) : List Entry :=
  List.insertionSort nameLe es

/-- One iteration of the `for f in sorted(dir.iterdir())` loop of
`encode_directory` (encode.py lines 151-168), threading the pair of the
output bytes written so far and the scope accumulator.  The recursive call
for a nested directory is abstracted into the `enc` parameter. -/
def encodeChildF (enc : String → List Entry → Except PyErr (List Nat × String))
    (relpath : String) (st : Except PyErr (List Nat × List Nat)) (e : Entry) :
    Except PyErr (List Nat × List Nat) :=
  match st with
  | .error err => .error err
  | .ok (out, dir_hash) =>
      match e with
      | .file name content =>
          let sha := hexdigest (hash content)
          let header := write_header
            [("type", "file"), ("name", childPath relpath name), ("sha256", sha),
             ("length", toString content.length)]
          .ok (out ++ header ++ content ++ [10], update dir_hash header)
      | .dir name children =>
          match enc (childPath relpath name) children with
          | .error err => .error err
          | .ok (sub, digest) => .ok (out ++ sub, update dir_hash (strBytes digest))
      | .symlink name target =>
          let header := write_header
            [("type", "symlink"), ("name", childPath relpath name), ("target", target)]
          .ok (out ++ header, update dir_hash header)
      | .other name => .error (.valueError ("Unknown file type: " ++ name))

/-- Model of `encode_directory` (encode.py lines 143-172), with the
directory given as its relative path plus its children.  The accumulator is
seeded with the directory header frame (`dirhash = hash(header)`), each
child updates it through `encodeChildF`, the footer carries the digest
taken before the footer frame is fed, and the returned digest includes the
footer frame.  The fuel bounds the nesting depth. -/
def encode_directory : Nat → String → List Entry → Except PyErr (List Nat × String)
  | 0, _, _ => .error .fuelOut
  | fuel + 1, relpath, children =>
      let header := write_header [("type", "directory"), ("name", relpath)]
      match (sortEntries children).foldl
          (encodeChildF (encode_directory fuel) relpath) (.ok (header, hash header)) with
      | .error err => .error err
      | .ok (out, dir_hash) =>
          let preSha := hexdigest dir_hash
          let footer := write_header [("type", "footer"), ("name", relpath), ("sha", preSha)]
          .ok (out ++ footer, hexdigest (update dir_hash footer))

/-- Output stream of an encode of a tree rooted at ".", or `[]` if the
encode raised. -/
def encodeOut (fuel : Nat) (children : List Entry) : List Nat :=
  match encode_directory fuel "." children with
  | .ok r => r.1
  | .error _ => []

/-- Spec-side description of the feed policy of the claims: the
contribution of one child to the accumulator of its parent scope is the
exact header frame written for a file or symlink child, and the digest
string returned by the recursive encode for a directory child. -/
def specChildFeed (fuel : Nat) (relpath : String) : Entry → Except PyErr (List Nat)
  | .file name content =>
      .ok (write_header
        [("type", "file"), ("name", childPath relpath name),
         ("sha256", hexdigest (hash content)), ("length", toString content.length)])
  | .dir name children =>
      match encode_directory fuel (childPath relpath name) children with
      | .error err => .error err
      | .ok r => .ok (strBytes r.2)
  | .symlink name target =>
      .ok (write_header
        [("type", "symlink"), ("name", childPath relpath name), ("target", target)])
  | .other name => .error (.valueError ("Unknown file type: " ++ name))

/-- Concatenation of the spec-side feeds of a list of children. -/
def specFeeds (fuel : Nat) (relpath : String) : List Entry → Except PyErr (List Nat)
  | [] => .ok []
  | e :: es =>
      match specChildFeed fuel relpath e with
      | .error err => .error err
      | .ok a =>
          match specFeeds fuel relpath es with
          | .error err => .error err
          | .ok b => .ok (a ++ b)

/-! ## Line splitting (used to state the frame-format claim) -/

/-- Split a character list at every newline; a trailing newline yields a
final empty segment. -/
def splitChars : List Char → List (List Char)
  | [] => [[]]
  | c :: cs =>
      if c = '\n' then [] :: splitChars cs
      else
        match splitChars cs with
        | [] => [[c]]
        | l :: ls => (c :: l) :: ls

/-- The lines of a string, split at newline characters. -/
def splitLines (s : String) : List String :=
  (splitChars s.data).map String.mk

/-- A string free of newline characters. -/
def noNL (s : String) : Prop := '\n' ∉ s.data

instance (s : String) : Decidable (noNL s) := by
  unfold noNL
  infer_instance

/-- Flip one bit of the byte at position `i` of a stream (used to state the
tamper-detection claim). -/
def flipAt (i : Nat) (s : List Nat) : List Nat :=
  s.set i ((s.getD i 0) ^^^ 1)

/-! ## Helper lemmas -/

/-- Python equality between a bytes value and a str value is always false. -/
@[simp]
theorem pyEq_bytes_str (b : List Nat) (s : String) : pyEq (.bytes b) (.str s) = false := rfl

/-- Every call of `read_header` consumes one line of the stream and returns
the empty header: the stripped line is a bytes object, the sentinel and the
empty string are str objects, so both guards of the source match statement
are false and the default arm returns `cls(header)` with `header` still
empty.  At end of stream the loop body never runs and the empty header is
returned as well. -/
theorem read_header_eq : ∀ (cls : HeaderCls) (s : List Nat),
    read_header cls s = .ok ([], (readLine s).2)
  | _, [] => rfl
  | cls, b :: bs => by
      show read_header_go cls ((bs.length + 1) + 1) 2 [] (b :: bs) = _
      rcases hr : readLine (b :: bs) with ⟨raw, rest⟩
      simp only [read_header_go, hr, pyEq_bytes_str, Bool.false_eq_true, if_false]
      rfl

/-- The decoder loop raises `ValueError("Unexpected EOF")` on every input:
`read_header` always returns a falsy (empty) header, so the `while` loop
never runs its body and the `else` clause raises. -/
theorem decode_dir_loop_eof (fuel : Nat) (root : String) (dir_hash : Hash)
    (ops : List FsOp) (s : List Nat) :
    decode_dir_loop (fuel + 1) root dir_hash ops s = .error (.valueError "Unexpected EOF") := by
  show (match read_header HeaderCls.Header s with
    | Except.error e => Except.error e
    | Except.ok (header, s₁) =>
        if header.isEmpty then Except.error (PyErr.valueError "Unexpected EOF")
        else decode_stepF (decode_dir_loop fuel root) root dir_hash ops header s₁) = _
  rw [read_header_eq]
  rfl

/-- Every decode of every stream raises `ValueError("Unexpected EOF")`
out of `decode_stream`, unwrapped. -/
theorem decode_stream_eof (fuel : Nat) (s : List Nat) :
    decode_stream (fuel + 1) s = .error (.valueError "Unexpected EOF") := by
  show (match read_header HeaderCls.DirectoryHeader s with
    | Except.error e => Except.error e
    | Except.ok (header, s₁) =>
        match decode_directory (fuel + 1) "" header s₁ with
        | Except.error e => Except.error e
        | Except.ok (digest, ops, _) =>
            if digest = "" then Except.error (PyErr.decoderFailure "Failed to decode")
            else Except.ok ops) = _
  rw [read_header_eq]
  show (match decode_directory (fuel + 1) "" [] ((readLine s).2) with
    | Except.error e => Except.error e
    | Except.ok (digest, ops, _) =>
        if digest = "" then Except.error (PyErr.decoderFailure "Failed to decode")
        else Except.ok ops) = _
  rw [show decode_directory (fuel + 1) "" [] ((readLine s).2) =
    decode_dir_loop (fuel + 1) "" (hash []) [] ((readLine s).2) from rfl]
  rw [decode_dir_loop_eof]

/-- Mapping over an ok value. -/
@[simp]
theorem exceptMap_ok {α β : Type} (f : α → β) (a : α) :
    (Except.ok a : Except PyErr α).map f = .ok (f a) := rfl

/-- Mapping over an error value. -/
@[simp]
theorem exceptMap_error {α β : Type} (f : α → β) (e : PyErr) :
    (Except.error e : Except PyErr α).map f = .error e := rfl

/-- Folding the child-encoding step over any children list keeps an error
state unchanged. -/
theorem encode_foldl_error (enc : String → List Entry → Except PyErr (List Nat × String))
    (relpath : String) :
    ∀ (es : List Entry) (err : PyErr),
      es.foldl (encodeChildF enc relpath) (.error err) = .error err := by
  intro es err
  induction es with
  | nil => rfl
  | cons e es ih =>
      rw [List.foldl_cons]
      rw [show encodeChildF enc relpath (.error err) e = .error err from rfl]
      exact ih

/-- Spec-side digest of one scope: seed the accumulator with the directory
header frame, add the per-child feeds of `specFeeds`, emit the footer frame
carrying the digest so far, feed that frame, and return the digest. -/
def specScopeDigest (fuel : Nat) (relpath : String) (children : List Entry) :
    Except PyErr String :=
  match specFeeds fuel relpath (sortEntries children) with
  | .error e => .error e
  | .ok feed =>
      let header := write_header [("type", "directory"), ("name", relpath)]
      let acc := update (hash header) feed
      let footer := write_header [("type", "footer"), ("name", relpath), ("sha", hexdigest acc)]
      .ok (hexdigest (update acc footer))

/-- The accumulator reached after folding the children equals the start
value extended by the concatenated spec-side feeds. -/
theorem encode_foldl_feed (fuel : Nat) (relpath : String) :
    ∀ (es : List Entry) (out acc : List Nat),
      ((es.foldl (encodeChildF (encode_directory fuel) relpath) (.ok (out, acc))).map
        (fun r => r.2)) =
      (specFeeds fuel relpath es).map (fun feed => update acc feed) := by
  intro es
  induction es with
  | nil =>
      intro out acc
      show Except.ok acc = Except.ok (update acc [])
      simp [update]
  | cons e es ih =>
      intro out acc
      rw [List.foldl_cons]
      cases e with
      | file name content =>
          rw [show encodeChildF (encode_directory fuel) relpath (.ok (out, acc))
              (.file name content) =
            .ok (out ++ write_header
                [("type", "file"), ("name", childPath relpath name),
                 ("sha256", hexdigest (hash content)), ("length", toString content.length)] ++
                content ++ [10],
              update acc (write_header
                [("type", "file"), ("name", childPath relpath name),
                 ("sha256", hexdigest (hash content)), ("length", toString content.length)]))
            from rfl]
          rw [ih]
          cases hS : specFeeds fuel relpath es with
          | error err =>
              simp only [specFeeds, specChildFeed, hS, exceptMap_ok, exceptMap_error]
          | ok feed =>
              simp only [specFeeds, specChildFeed, hS, exceptMap_ok, exceptMap_error]
              simp [update, List.append_assoc]
      | dir name children =>
          cases hE : encode_directory fuel (childPath relpath name) children with
          | error err =>
              simp only [encodeChildF, hE]
              rw [encode_foldl_error]
              simp only [specFeeds, specChildFeed, hE, exceptMap_error]
          | ok r =>
              obtain ⟨sub, dg⟩ := r
              simp only [encodeChildF, hE]
              rw [ih]
              cases hS : specFeeds fuel relpath es with
              | error err =>
                  simp only [specFeeds, specChildFeed, hE, hS, exceptMap_ok, exceptMap_error]
              | ok feed =>
                  simp only [specFeeds, specChildFeed, hE, hS, exceptMap_ok, exceptMap_error]
                  simp [update, List.append_assoc]
      | symlink name target =>
          rw [show encodeChildF (encode_directory fuel) relpath (.ok (out, acc))
              (.symlink name target) =
            .ok (out ++ write_header
                [("type", "symlink"), ("name", childPath relpath name), ("target", target)],
              update acc (write_header
                [("type", "symlink"), ("name", childPath relpath name), ("target", target)]))
            from rfl]
          rw [ih]
          cases hS : specFeeds fuel relpath es with
          | error err =>
              simp only [specFeeds, specChildFeed, hS, exceptMap_ok, exceptMap_error]
          | ok feed =>
              simp only [specFeeds, specChildFeed, hS, exceptMap_ok, exceptMap_error]
              simp [update, List.append_assoc]
      | other name =>
          rw [show encodeChildF (encode_directory fuel) relpath (.ok (out, acc)) (.other name) =
            .error (.valueError ("Unknown file type: " ++ name)) from rfl]
          rw [encode_foldl_error]
          rfl

/-- Claim C3.  Encoder hash-feed asymmetry: for every directory scope
encoded by `encode_directory`, the digest the scope reports is a function
of exactly the directory header frame, then — per child, in sorted order —
the header-frame bytes just written for a `File` or `Symlink` child and the
digest string returned by the recursive encode for a nested `Directory`
child (never the payload and never a nested header frame), and finally the
footer frame; `specScopeDigest` is that spec-side description. -/
theorem encoder_feed_asymmetry (fuel : Nat) (relpath : String) (children : List Entry) :
    (encode_directory (fuel + 1) relpath children).map (fun r => r.2) =
      specScopeDigest fuel relpath children := by
  have hfeed := encode_foldl_feed fuel relpath (sortEntries children)
    (write_header [("type", "directory"), ("name", relpath)])
    (hash (write_header [("type", "directory"), ("name", relpath)]))
  show ((match (sortEntries children).foldl (encodeChildF (encode_directory fuel) relpath)
      (Except.ok (write_header [("type", "directory"), ("name", relpath)],
        hash (write_header [("type", "directory"), ("name", relpath)]))) with
    | Except.error err => Except.error err
    | Except.ok (out₁, acc₁) =>
        Except.ok (out₁ ++ write_header
            [("type", "footer"), ("name", relpath), ("sha", hexdigest acc₁)],
          hexdigest (update acc₁ (write_header
            [("type", "footer"), ("name", relpath), ("sha", hexdigest acc₁)])))).map
      (fun (r : List Nat × String) => r.2)) = specScopeDigest fuel relpath children
  cases hF : (sortEntries children).foldl (encodeChildF (encode_directory fuel) relpath)
      (Except.ok (write_header [("type", "directory"), ("name", relpath)],
        hash (write_header [("type", "directory"), ("name", relpath)]))) with
  | error err =>
      rw [hF] at hfeed
      cases hS : specFeeds fuel relpath (sortEntries children) with
      | error err₂ =>
          rw [hS] at hfeed
          simp only [exceptMap_error] at hfeed
          injection hfeed with h
          show Except.error err = specScopeDigest fuel relpath children
          rw [show specScopeDigest fuel relpath children =
            (match specFeeds fuel relpath (sortEntries children) with
              | Except.error e => Except.error e
              | Except.ok feed =>
                  Except.ok (hexdigest (update
                    (update (hash (write_header [("type", "directory"), ("name", relpath)])) feed)
                    (write_header [("type", "footer"), ("name", relpath),
                      ("sha", hexdigest (update
                        (hash (write_header [("type", "directory"), ("name", relpath)]))
                        feed))])))) from rfl]
          rw [hS, h]
      | ok feed =>
          rw [hS] at hfeed
          exact absurd hfeed (by simp)
  | ok r =>
      obtain ⟨out, acc⟩ := r
      rw [hF] at hfeed
      cases hS : specFeeds fuel relpath (sortEntries children) with
      | error err₂ =>
          rw [hS] at hfeed
          exact absurd hfeed (by simp)
      | ok feed =>
          rw [hS] at hfeed
          simp only [exceptMap_error, exceptMap_ok] at hfeed
          injection hfeed with h
          show Except.ok (hexdigest (update acc (write_header
              [("type", "footer"), ("name", relpath), ("sha", hexdigest acc)]))) =
            specScopeDigest fuel relpath children
          rw [show specScopeDigest fuel relpath children =
            (match specFeeds fuel relpath (sortEntries children) with
              | Except.error e => Except.error e
              | Except.ok feed =>
                  Except.ok (hexdigest (update
                    (update (hash (write_header [("type", "directory"), ("name", relpath)])) feed)
                    (write_header [("type", "footer"), ("name", relpath),
                      ("sha", hexdigest (update
                        (hash (write_header [("type", "directory"), ("name", relpath)]))
                        feed))])))) from rfl]
          rw [hS, h]

/-- Claim C4.  Footer emission: whenever a scope encodes successfully, the
output ends with the footer frame, whose `sha` field is the digest of the
scope accumulator before the footer frame itself is fed, and the digest
returned to the caller is the digest of the accumulator after that footer
frame has been fed. -/
theorem footer_emission (fuel : Nat) (relpath : String) (children : List Entry)
    (out : List Nat) (digest : String)
    (h : encode_directory (fuel + 1) relpath children = .ok (out, digest)) :
    ∃ acc head,
      out = head ++ write_header [("type", "footer"), ("name", relpath), ("sha", hexdigest acc)] ∧
      digest = hexdigest (update acc
        (write_header [("type", "footer"), ("name", relpath), ("sha", hexdigest acc)])) := by
  rw [show encode_directory (fuel + 1) relpath children =
    (match (sortEntries children).foldl (encodeChildF (encode_directory fuel) relpath)
        (Except.ok (write_header [("type", "directory"), ("name", relpath)],
          hash (write_header [("type", "directory"), ("name", relpath)]))) with
      | Except.error err => Except.error err
      | Except.ok (out₁, acc₁) =>
          Except.ok (out₁ ++ write_header
              [("type", "footer"), ("name", relpath), ("sha", hexdigest acc₁)],
            hexdigest (update acc₁ (write_header
              [("type", "footer"), ("name", relpath), ("sha", hexdigest acc₁)])))) from rfl] at h
  cases hF : (sortEntries children).foldl (encodeChildF (encode_directory fuel) relpath)
      (Except.ok (write_header [("type", "directory"), ("name", relpath)],
        hash (write_header [("type", "directory"), ("name", relpath)]))) with
  | error err =>
      rw [hF] at h
      exact absurd h (by simp)
  | ok r =>
      obtain ⟨out₁, acc₁⟩ := r
      rw [hF] at h
      injection h with h
      injection h with h₁ h₂
      exact ⟨acc₁, out₁, h₁.symm, h₂.symm⟩

/-- Witness for the footer-emission claim at the empty directory tree. -/
theorem footer_emission_witness :
    ∃ out digest, encode_directory 1 "." [] = .ok (out, digest) ∧
      ∃ acc head,
        out = head ++ write_header [("type", "footer"), ("name", "."), ("sha", hexdigest acc)] ∧
        digest = hexdigest (update acc
          (write_header [("type", "footer"), ("name", "."), ("sha", hexdigest acc)])) :=
  ⟨_, _, rfl, footer_emission 0 "." [] _ _ rfl⟩

/-- The characterisation of one comparison step of `charListLe`. -/
theorem charListLe_cons_iff {a b : Char} {as bs : List Char} :
    charListLe (a :: as) (b :: bs) = true ↔
      a.toNat < b.toNat ∨ (a.toNat = b.toNat ∧ charListLe as bs = true) := by
  simp only [charListLe]
  by_cases h₁ : a.toNat < b.toNat
  · simp [h₁]
  · by_cases h₂ : b.toNat < a.toNat
    · simp [h₁, h₂]
      omega
    · have h₃ : a.toNat = b.toNat := by omega
      simp [h₁, h₂, h₃]

/-- Reflexivity of the code-point order. -/
theorem charListLe_refl : ∀ a, charListLe a a = true
  | [] => rfl
  | a :: as => charListLe_cons_iff.mpr (Or.inr ⟨rfl, charListLe_refl as⟩)

/-- Totality of the code-point order. -/
theorem charListLe_total : ∀ a b, charListLe a b = true ∨ charListLe b a = true
  | [], _ => Or.inl rfl
  | _ :: _, [] => Or.inr rfl
  | a :: as, b :: bs => by
      rcases Nat.lt_trichotomy a.toNat b.toNat with h | h | h
      · exact Or.inl (charListLe_cons_iff.mpr (Or.inl h))
      · rcases charListLe_total as bs with ih | ih
        · exact Or.inl (charListLe_cons_iff.mpr (Or.inr ⟨h, ih⟩))
        · exact Or.inr (charListLe_cons_iff.mpr (Or.inr ⟨h.symm, ih⟩))
      · exact Or.inr (charListLe_cons_iff.mpr (Or.inl h))

/-- Transitivity of the code-point order. -/
theorem charListLe_trans : ∀ a b c, charListLe a b = true → charListLe b c = true →
    charListLe a c = true
  | [], _, _, _, _ => rfl
  | _ :: _, [], _, h, _ => by simp [charListLe] at h
  | _ :: _, _ :: _, [], _, h => by simp [charListLe] at h
  | a :: as, b :: bs, c :: cs, h₁, h₂ => by
      rcases charListLe_cons_iff.mp h₁ with h | ⟨he, hr⟩ <;>
        rcases charListLe_cons_iff.mp h₂ with h₃ | ⟨he₃, hr₃⟩
      · exact charListLe_cons_iff.mpr (Or.inl (by omega))
      · exact charListLe_cons_iff.mpr (Or.inl (by omega))
      · exact charListLe_cons_iff.mpr (Or.inl (by omega))
      · exact charListLe_cons_iff.mpr
          (Or.inr ⟨by omega, charListLe_trans as bs cs hr hr₃⟩)

/-- Antisymmetry of the code-point order. -/
theorem charListLe_antisymm : ∀ a b, charListLe a b = true → charListLe b a = true → a = b
  | [], [], _, _ => rfl
  | [], _ :: _, _, h => by simp [charListLe] at h
  | _ :: _, [], h, _ => by simp [charListLe] at h
  | a :: as, b :: bs, h₁, h₂ => by
      rcases charListLe_cons_iff.mp h₁ with h | ⟨he, hr⟩ <;>
        rcases charListLe_cons_iff.mp h₂ with h₃ | ⟨he₃, hr₃⟩ <;>
        try omega
      have hc : a = b := Char.ext (UInt32.toNat.inj he)
      rw [hc, charListLe_antisymm as bs hr hr₃]

instance : IsTotal Entry nameLe :=
  ⟨fun a b => charListLe_total (entryName a).data (entryName b).data⟩

instance : IsTrans Entry nameLe :=
  ⟨fun a b c h₁ h₂ => charListLe_trans (entryName a).data (entryName b).data
    (entryName c).data h₁ h₂⟩

/-- Two sorted entry lists that are permutations of each other and have
pairwise-distinct names are equal. -/
theorem sorted_nodup_perm_eq : ∀ (l₁ l₂ : List Entry), List.Perm l₁ l₂ →
    l₁.Pairwise nameLe → l₂.Pairwise nameLe → (l₁.map entryName).Nodup → l₁ = l₂
  | [], l₂, p, _, _, _ => (p.symm.eq_nil).symm
  | a :: t₁, [], p, _, _, _ => absurd p.eq_nil (by simp)
  | a :: t₁, b :: t₂, p, s₁, s₂, nd => by
      have ha : a ∈ b :: t₂ := p.subset (List.mem_cons_self a t₁)
      have hb : b ∈ a :: t₁ := p.symm.subset (List.mem_cons_self b t₂)
      obtain ⟨h₁all, s₁t⟩ := List.pairwise_cons.mp s₁
      obtain ⟨h₂all, s₂t⟩ := List.pairwise_cons.mp s₂
      obtain ⟨hnm, ndt⟩ := List.nodup_cons.mp nd
      have hab : a = b := by
        rcases List.mem_cons.mp hb with h | hbt
        · exact h.symm
        · have nA : nameLe a b := h₁all b hbt
          have nB : nameLe b a := by
            rcases List.mem_cons.mp ha with h | hat
            · rw [h]
              exact charListLe_refl _
            · exact h₂all a hat
          have hname : entryName a = entryName b := by
            have hd : (entryName a).data = (entryName b).data :=
              charListLe_antisymm _ _ nA nB
            have := congrArg String.mk hd
            simpa using this
          exact absurd (hname ▸ List.mem_map_of_mem entryName hbt) hnm
      subst hab
      have pt : List.Perm t₁ t₂ := p.cons_inv
      rw [sorted_nodup_perm_eq t₁ t₂ pt s₁t s₂t ndt]

/-- Sorting is invariant under permutation of the input when names are
pairwise distinct (the nondeterministic enumeration order of
`dir.iterdir()` therefore never affects the encoder). -/
theorem sortEntries_eq_of_perm (l₁ l₂ : List Entry) (hp : List.Perm l₁ l₂)
    (hn : (l₁.map entryName).Nodup) : sortEntries l₁ = sortEntries l₂ := by
  apply sorted_nodup_perm_eq
  · exact (List.perm_insertionSort nameLe l₁).trans
      (hp.trans (List.perm_insertionSort nameLe l₂).symm)
  · exact List.sorted_insertionSort nameLe l₁
  · exact List.sorted_insertionSort nameLe l₂
  · exact (((List.perm_insertionSort nameLe l₁).map entryName).nodup_iff).mpr hn

/-- Claim C8.  Determinism: children of every directory scope are emitted
in name-sorted order, and the encoded stream does not depend on the
enumeration order of the directory (so encoding the same tree twice yields
byte-identical streams even though `dir.iterdir()` has no deterministic
order), provided the names inside the directory are distinct, as they are
on a filesystem. -/
theorem encode_deterministic :
    (∀ children : List Entry,
        ((sortEntries children).map entryName).Pairwise
          (fun a b => charListLe a.data b.data = true)) ∧
    (∀ (fuel : Nat) (relpath : String) (l₁ l₂ : List Entry), List.Perm l₁ l₂ →
        (l₁.map entryName).Nodup →
        encode_directory fuel relpath l₁ = encode_directory fuel relpath l₂) := by
  constructor
  · intro children
    exact (List.pairwise_map).mpr (List.sorted_insertionSort nameLe children)
  · intro fuel relpath l₁ l₂ hp hn
    cases fuel with
    | zero => rfl
    | succ fuel =>
        show (match (sortEntries l₁).foldl (encodeChildF (encode_directory fuel) relpath)
            (Except.ok (write_header [("type", "directory"), ("name", relpath)],
              hash (write_header [("type", "directory"), ("name", relpath)]))) with
          | Except.error err => Except.error err
          | Except.ok (out₁, acc₁) =>
              Except.ok (out₁ ++ write_header
                  [("type", "footer"), ("name", relpath), ("sha", hexdigest acc₁)],
                hexdigest (update acc₁ (write_header
                  [("type", "footer"), ("name", relpath), ("sha", hexdigest acc₁)])))) = _
        rw [sortEntries_eq_of_perm l₁ l₂ hp hn]
        rfl

/-- Witness for the determinism claim: two enumeration orders of the same
two-file directory encode to the same stream. -/
theorem encode_deterministic_witness :
    List.Perm [Entry.file "b" [50], Entry.file "a" [49]]
      [Entry.file "a" [49], Entry.file "b" [50]] ∧
    encode_directory 1 "." [Entry.file "b" [50], Entry.file "a" [49]] =
      encode_directory 1 "." [Entry.file "a" [49], Entry.file "b" [50]] := by
  have hp : List.Perm [Entry.file "b" [50], Entry.file "a" [49]]
      [Entry.file "a" [49], Entry.file "b" [50]] :=
    List.Perm.swap (Entry.file "a" [49]) (Entry.file "b" [50]) []
  exact ⟨hp, encode_deterministic.2 1 "." _ _ hp (by decide)⟩

/-- Splitting a newline-free segment followed by a newline pops that
segment. -/
theorem splitChars_append_nl : ∀ (xs ys : List Char), '\n' ∉ xs →
    splitChars (xs ++ '\n' :: ys) = xs :: splitChars ys
  | [], ys, _ => by simp [splitChars]
  | c :: xs, ys, h => by
      have hc : ¬ c = '\n' := fun hh => h (by rw [hh]; exact List.mem_cons_self _ _)
      simp only [List.cons_append, splitChars, if_neg hc, List.append_eq]
      rw [splitChars_append_nl xs ys (fun hm => h (List.mem_cons_of_mem c hm))]

/-- Splitting after a leading newline. -/
theorem splitChars_cons_nl (ys : List Char) : splitChars ('\n' :: ys) = [] :: splitChars ys := by
  simpa using splitChars_append_nl [] ys (by simp)

/-- Splitting the newline-join of newline-free lines recovers the lines. -/
theorem joinNL_split : ∀ (lines : List String) (tail : List Char),
    (∀ l ∈ lines, '\n' ∉ l.data) → lines ≠ [] →
    splitChars ((joinNL lines).data ++ '\n' :: tail) =
      lines.map String.data ++ splitChars tail
  | [], _, _, h => absurd rfl h
  | [l], tail, hAll, _ => by
      show splitChars (l.data ++ '\n' :: tail) = l.data :: splitChars tail
      rw [splitChars_append_nl l.data tail (hAll l (List.mem_singleton.mpr rfl))]
  | l :: m :: rest, tail, hAll, _ => by
      show splitChars ((l ++ "\n" ++ joinNL (m :: rest)).data ++ '\n' :: tail) =
        l.data :: ((m :: rest).map String.data ++ splitChars tail)
      rw [String.data_append, String.data_append,
        show ("\n" : String).data = ['\n'] from rfl]
      have hshape : ((l.data ++ ['\n']) ++ (joinNL (m :: rest)).data) ++ '\n' :: tail =
          l.data ++ '\n' :: ((joinNL (m :: rest)).data ++ '\n' :: tail) := by
        simp [List.append_assoc]
      rw [hshape]
      rw [splitChars_append_nl l.data _ (hAll l (List.mem_cons_self _ _))]
      rw [joinNL_split (m :: rest) tail (fun x hx => hAll x (List.mem_cons_of_mem l hx))
        (by simp)]

/-- The character decomposition of a header frame. -/
theorem frameStr_data (fields : List (String × String)) :
    (frameStr fields).data =
      '\n' :: (SEPARATOR.data ++ '\n' ::
        ((joinNL (fields.map fun kv => kv.1 ++ ":" ++ kv.2)).data ++ '\n' ::
          (SEPARATOR.data ++ ['\n']))) := by
  show ("\n" ++ SEPARATOR ++ "\n" ++ joinNL (fields.map fun kv => kv.1 ++ ":" ++ kv.2) ++
    "\n" ++ SEPARATOR ++ "\n").data = _
  rw [String.data_append, String.data_append, String.data_append, String.data_append,
    String.data_append, String.data_append, show ("\n" : String).data = ['\n'] from rfl]
  simp [List.append_assoc]

/-- Mapping reconstruction over decomposition is the identity on strings. -/
theorem map_mk_data : ∀ (l : List String), l.map (String.mk ∘ String.data) = l
  | [] => rfl
  | x :: xs => by
      rw [List.map_cons, map_mk_data xs]
      rfl

/-- Claim C9.  Header frame format: the sentinel is 8 characters long, and
for every nonempty field list whose `key:value` lines are newline-free the
frame text splits into exactly a blank line, the sentinel line, one
`key:value` line per field in order, the identical sentinel line again and
a final empty segment produced by the terminating newline; `write_header`
returns (and writes) exactly the UTF-8 bytes of that frame text. -/
theorem write_header_frame_format :
    SEPARATOR.length = 8 ∧
    ∀ fields : List (String × String), fields ≠ [] →
      (∀ kv ∈ fields, noNL (kv.1 ++ ":" ++ kv.2)) →
      splitLines (frameStr fields) =
        "" :: SEPARATOR :: (fields.map fun kv => kv.1 ++ ":" ++ kv.2) ++ [SEPARATOR, ""] ∧
      write_header fields = strBytes (frameStr fields) := by
  constructor
  · rfl
  · intro fields hne hnl
    constructor
    · show (splitChars (frameStr fields).data).map String.mk = _
      rw [frameStr_data, splitChars_cons_nl,
        splitChars_append_nl SEPARATOR.data _ (by decide),
        joinNL_split (fields.map fun kv => kv.1 ++ ":" ++ kv.2) _
          (by
            intro l hl
            obtain ⟨kv, hkv, rfl⟩ := List.mem_map.mp hl
            exact hnl kv hkv)
          (by simpa using hne),
        splitChars_append_nl SEPARATOR.data [] (by decide)]
      show ([] :: SEPARATOR.data :: ((fields.map fun kv => kv.1 ++ ":" ++ kv.2).map String.data ++
        [SEPARATOR.data, []])).map String.mk = _
      rw [List.map_cons, List.map_cons, List.map_append, List.map_map]
      rw [map_mk_data]
      rfl
    · rfl

/-- Witness for the header-frame-format claim at the directory header of
the root scope. -/
theorem write_header_frame_format_witness :
    SEPARATOR.length = 8 ∧
    splitLines (frameStr [("type", "directory"), ("name", ".")]) =
      "" :: SEPARATOR :: ([("type", "directory"), ("name", ".")].map
        fun kv => kv.1 ++ ":" ++ kv.2) ++ [SEPARATOR, ""] ∧
    write_header [("type", "directory"), ("name", ".")] =
      strBytes (frameStr [("type", "directory"), ("name", ".")]) := by
  refine ⟨write_header_frame_format.1, ?_, ?_⟩
  · exact (write_header_frame_format.2 [("type", "directory"), ("name", ".")]
      (by decide) (by decide)).1
  · exact (write_header_frame_format.2 [("type", "directory"), ("name", ".")]
      (by decide) (by decide)).2

/-- Python equality of two str values is string equality. -/
@[simp]
theorem pyEq_str_str (a b : String) : pyEq (.str a) (.str b) = (a == b) := rfl

/-- Claim C10.  Decoder accumulator feed: a scope decoded by
`decode_directory` starts from an empty accumulator (`hash []` — it is
never seeded with the directory header frame, unlike the encoder), and the
loop body extends the accumulator with the content digest returned by
`decode_file` for a file child, with the empty string returned by
`decode_symlink` for a symlink child, and with the digest returned by the
nested scope (which itself starts empty) for a directory child; a footer
whose declared `sha` equals the digest of the accumulator ends the scope
returning that pre-footer digest without feeding the footer frame.  Header
frame bytes are never fed. -/
theorem decoder_accumulator_policy :
    (∀ (fuel : Nat) (root : String) (hdr : PyHeader) (s : List Nat),
        decode_directory fuel root hdr s = decode_dir_loop fuel root (hash []) [] s) ∧
    (∀ loop (root : String) (acc : Hash) (ops : List FsOp) (hdr : PyHeader) (s : List Nat),
        pyGet hdr "type" = .ok (.str "file") →
        decode_stepF loop root acc ops hdr s =
          match decode_file root hdr s with
          | .error e => .error e
          | .ok (sha, fops, s₁) => loop (update acc (strBytes sha)) (ops ++ fops) s₁) ∧
    (∀ loop (root : String) (acc : Hash) (ops : List FsOp) (hdr : PyHeader) (s : List Nat),
        pyGet hdr "type" = .ok (.str "symlink") →
        decode_stepF loop root acc ops hdr s =
          match decode_symlink root hdr with
          | .error e => .error e
          | .ok (sha, fops) => loop (update acc (strBytes sha)) (ops ++ fops) s) ∧
    (∀ (root : String) (hdr : PyHeader) (r : String × List FsOp),
        decode_symlink root hdr = .ok r → r.1 = "") ∧
    (∀ loop (root : String) (acc : Hash) (ops : List FsOp) (hdr : PyHeader) (s : List Nat),
        pyGet hdr "type" = .ok (.str "directory") →
        decode_stepF loop root acc ops hdr s =
          match loop (hash []) ops s with
          | .error e => .error e
          | .ok (digest, ops₁, s₁) => loop (update acc (strBytes digest)) ops₁ s₁) ∧
    (∀ loop (root : String) (acc : Hash) (ops : List FsOp) (hdr : PyHeader) (s : List Nat),
        pyGet hdr "type" = .ok (.str "footer") →
        pyGet hdr "sha" = .ok (.str (hexdigest acc)) →
        decode_stepF loop root acc ops hdr s = .ok (hexdigest acc, ops, s)) := by
  refine ⟨fun _ _ _ _ => rfl, ?_, ?_, ?_, ?_, ?_⟩
  · intro loop root acc ops hdr s h
    simp only [decode_stepF, h]
    rfl
  · intro loop root acc ops hdr s h
    simp only [decode_stepF, h]
    rfl
  · intro root hdr r h
    unfold decode_symlink at h
    split at h
    · exact absurd h (by simp)
    · split at h
      · exact absurd h (by simp)
      · split at h
        · exact absurd h (by simp)
        · split at h
          · exact absurd h (by simp)
          · injection h with h
            rw [← h]
  · intro loop root acc ops hdr s h
    simp only [decode_stepF, h]
    rfl
  · intro loop root acc ops hdr s h₁ h₂
    simp only [decode_stepF, h₁, h₂]
    rw [show pyEq (PyVal.str "footer") (PyVal.str "file") = false from rfl,
      show pyEq (PyVal.str "footer") (PyVal.str "symlink") = false from rfl,
      show pyEq (PyVal.str "footer") (PyVal.str "directory") = false from rfl,
      show pyEq (PyVal.str "footer") (PyVal.str "footer") = true from rfl]
    simp [beq_self_eq_true]

/-- Witness for the decoder accumulator policy at concrete headers. -/
theorem decoder_accumulator_policy_witness :
    decode_directory 1 "" [] [3] = decode_dir_loop 1 "" (hash []) [] [3] ∧
    (decode_stepF (decode_dir_loop 1 "") "" [7] []
        [("type", PyVal.str "file"), ("name", PyVal.str "a"),
         ("sha256", PyVal.str (hexdigest (hash [104, 105]))), ("length", PyVal.int 2)]
        [104, 105] =
      match decode_file ""
          [("type", PyVal.str "file"), ("name", PyVal.str "a"),
           ("sha256", PyVal.str (hexdigest (hash [104, 105]))), ("length", PyVal.int 2)]
          [104, 105] with
      | Except.error e => Except.error e
      | Except.ok (sha, fops, s₁) =>
          decode_dir_loop 1 "" (update [7] (strBytes sha)) ([] ++ fops) s₁) ∧
    (decode_stepF (decode_dir_loop 1 "") "" [7] []
        [("type", PyVal.str "symlink"), ("name", PyVal.str "s"), ("target", PyVal.str "a")]
        [104, 105] =
      match decode_symlink ""
          [("type", PyVal.str "symlink"), ("name", PyVal.str "s"), ("target", PyVal.str "a")] with
      | Except.error e => Except.error e
      | Except.ok (sha, fops) =>
          decode_dir_loop 1 "" (update [7] (strBytes sha)) ([] ++ fops) [104, 105]) ∧
    (("", [FsOp.makeSymlink "s" "a"]) : String × List FsOp).1 = "" ∧
    (decode_stepF (decode_dir_loop 1 "") "" [7] []
        [("type", PyVal.str "directory"), ("name", PyVal.str "d")] [104, 105] =
      match decode_dir_loop 1 "" (hash []) [] [104, 105] with
      | Except.error e => Except.error e
      | Except.ok (digest, ops₁, s₁) =>
          decode_dir_loop 1 "" (update [7] (strBytes digest)) ops₁ s₁) ∧
    (decode_stepF (decode_dir_loop 1 "") "" [1] []
        [("type", PyVal.str "footer"), ("name", PyVal.str "."),
         ("sha", PyVal.str (hexdigest [1]))] [104, 105] =
      .ok (hexdigest [1], [], [104, 105])) :=
  ⟨decoder_accumulator_policy.1 1 "" [] [3],
    decoder_accumulator_policy.2.1 (decode_dir_loop 1 "") "" [7] []
      [("type", PyVal.str "file"), ("name", PyVal.str "a"),
       ("sha256", PyVal.str (hexdigest (hash [104, 105]))), ("length", PyVal.int 2)]
      [104, 105] (by decide),
    decoder_accumulator_policy.2.2.1 (decode_dir_loop 1 "") "" [7] []
      [("type", PyVal.str "symlink"), ("name", PyVal.str "s"), ("target", PyVal.str "a")]
      [104, 105] (by decide),
    decoder_accumulator_policy.2.2.2.1 ""
      [("type", PyVal.str "symlink"), ("name", PyVal.str "s"), ("target", PyVal.str "a")]
      ("", [FsOp.makeSymlink "s" "a"]) (by decide),
    decoder_accumulator_policy.2.2.2.2.1 (decode_dir_loop 1 "") "" [7] []
      [("type", PyVal.str "directory"), ("name", PyVal.str "d")] [104, 105] (by decide),
    decoder_accumulator_policy.2.2.2.2.2 (decode_dir_loop 1 "") "" [1] []
      [("type", PyVal.str "footer"), ("name", PyVal.str "."),
       ("sha", PyVal.str (hexdigest [1]))] [104, 105] (by decide) (by decide)⟩

/-- Claim C1 evidence.  The round trip fails on the code: the encode of a
one-file tree produces a nonempty stream, but decoding that very stream
raises `ValueError("Unexpected EOF")` instead of reconstructing the tree,
because `read_header` never parses a header (bytes lines are compared
against str constants). -/
theorem roundtrip_decode_fails :
    encodeOut 2 [Entry.file "a.txt" [104, 105]] ≠ [] ∧
    decode_stream 2 (encodeOut 2 [Entry.file "a.txt" [104, 105]]) =
      .error (.valueError "Unexpected EOF") :=
  ⟨by decide, decode_stream_eof 1 _⟩

/-- Claim C2 evidence.  Reading the header frame of the root directory
returns the empty header after consuming only the first (blank) line: none
of the sentinel skipping, `key:value` parsing or typed conversion happens. -/
theorem read_header_returns_empty_header :
    read_header HeaderCls.Header (strBytes "\n--------\ntype:directory\nname:.\n--------\n") =
      .ok ([], strBytes "--------\ntype:directory\nname:.\n--------\n") := by
  decide

/-- Claim C5 counterexample.  A frame carrying the unrecognized field name
`bogus` is not rejected: `read_header` returns without error (with an empty
header), so no malformed-header failure is raised. -/
theorem unknown_field_not_rejected :
    read_header HeaderCls.FileHeader (strBytes "\n--------\nbogus:1\ntype:file\n--------\n") =
      .ok ([], strBytes "--------\nbogus:1\ntype:file\n--------\n") := by
  decide

/-- Claim C5 amended.  `read_header` never fails: on every input and for
every header class it returns successfully with an empty header after
consuming one line, so unknown field names, missing separators and typed
conversions never cause an error (and the annotation table would in any
case default an unknown field to the plain-text conversion via
`annotations.get(key, str)` rather than reject it). -/
theorem read_header_never_fails (cls : HeaderCls) (s : List Nat) :
    ∃ rest, read_header cls s = .ok ([], rest) ∧ rest = (readLine s).2 :=
  ⟨(readLine s).2, read_header_eq cls s, rfl⟩

/-- Claim C6 counterexample.  Decoding a stream made of a single directory
header frame surfaces a raw `ValueError`, not a `DecoderFailure`: the
decode boundary does not wrap inner failures. -/
theorem decode_error_not_wrapped :
    decode_stream 2 (strBytes "\n--------\ntype:directory\nname:.\n--------\n") =
      .error (.valueError "Unexpected EOF") ∧
    isDecoderFailureB (.valueError "Unexpected EOF") = false :=
  ⟨decode_stream_eof 1 _, rfl⟩

/-- Claim C6 amended.  Decode-time failures propagate out of
`decode_stream` unwrapped: for every input stream the inner
`ValueError("Unexpected EOF")` escapes unchanged (`DecoderFailure` would be
raised only if `decode_directory` returned a falsy digest, which never
happens since it either raises or returns a nonempty digest string). -/
theorem decode_failures_propagate_unwrapped (fuel : Nat) (s : List Nat) :
    decode_stream (fuel + 1) s = .error (.valueError "Unexpected EOF") ∧
    isDecoderFailureB (.valueError "Unexpected EOF") = false :=
  ⟨decode_stream_eof fuel s, rfl⟩

/-- Claim C7 evidence.  Flipping any byte of the encoded one-file stream
(whatever its position, in particular every payload position) makes the
decode fail with `ValueError("Unexpected EOF")` — not with the hash
mismatch of `decode_file`, which is never reached because `read_header`
never yields a file header. -/
theorem tampered_payload_decode_error (i : Nat) :
    decode_stream 2 (flipAt i (encodeOut 2 [Entry.file "a.txt" [104, 105]])) =
      .error (.valueError "Unexpected EOF") :=
  decode_stream_eof 1 _

end GitHooks